import Mathlib

/-!
Verification development for the BitWill inheritance-vault application.

The definitions below are shallow embeddings of the TypeScript sources:
`src/services/psbtBuilder.ts`, `src/services/charms.ts`, the
`WalletProvider` context (current and older variant), and the
`CreateVault` wizard page. Machine arithmetic: JavaScript numbers used
as integers are modelled as `Int`/`Nat`; the one floating-point
computation (`claimAmountSats`) is modelled exactly as IEEE-754 double
arithmetic over `ℚ` with round-to-nearest-even.
-/

namespace BitWill

/-! ## Vault data model (src/types.ts) -/

/-- Vault lifecycle status, from the `status` union in `types.ts`:
`'active' | 'warning' | 'triggered' | 'claimed' | 'cancelled'`. -/
inductive VaultStatus where
  | active
  | warning
  | triggered
  | claimed
  | cancelled
deriving DecidableEq, Repr

/-- Beneficiary record from `types.ts`. `percentage` is entered through
`parseInt` in the CreateVault wizard, hence a natural number. -/
structure Beneficiary where
  id : String
  name : String
  address : String
  percentage : Nat
deriving DecidableEq, Repr

/-- Vault record from `types.ts` (fields relevant to the lifecycle logic).
`lastCheckIn` is a millisecond timestamp (`Date.getTime()`),
`inactivityPeriod` is in days. -/
structure Vault where
  id : String
  ownerAddress : String
  amountSats : Nat
  beneficiaries : List Beneficiary
  inactivityPeriod : Int
  lastCheckIn : Int
  status : VaultStatus
deriving DecidableEq, Repr

/-! ## Time-based status derivation

Three derivations exist in the sources:
* the status-update effect of the current `WalletProvider`
  (`part_005` lines 124-149), sticky for `claimed` and `cancelled`;
* the status-update effect of the older `WalletProvider`
  (`part_006` lines 78-104), sticky for `claimed` only;
* `CharmsService.checkVaultStatus` (`charms.ts` lines 195-210), which
  ignores the stored status entirely and only ever returns a live status.
-/

/-- Milliseconds per day, `1000 * 60 * 60 * 24`. -/
def msPerDay : Int := 86400000

/-- Status recomputation of the current `WalletProvider` effect
(`part_005` lines 124-149).  `Math.floor` of the division of two
JavaScript numbers is floor division (`Int.fdiv`). -/
def updateStatus (v : Vault) (now : Int) : VaultStatus :=
  if v.status = .claimed ∨ v.status = .cancelled then v.status
  else
    let daysSinceCheckIn := (now - v.lastCheckIn).fdiv msPerDay
    let daysRemaining := v.inactivityPeriod - daysSinceCheckIn
    if daysRemaining ≤ 0 then .triggered
    else if daysRemaining ≤ 7 then .warning
    else .active

/-- Status recomputation of the older `WalletProvider` effect
(`part_006` lines 78-104): the guard is `vault.status === 'claimed'`
only, so `cancelled` is not protected. -/
def updateStatusOld (v : Vault) (now : Int) : VaultStatus :=
  if v.status = .claimed then v.status
  else
    let daysSinceCheckIn := (now - v.lastCheckIn).fdiv msPerDay
    let daysRemaining := v.inactivityPeriod - daysSinceCheckIn
    if daysRemaining ≤ 0 then .triggered
    else if daysRemaining ≤ 7 then .warning
    else .active

/-- `CharmsService.checkVaultStatus` (`charms.ts` lines 195-210).
It never reads `vault.status`; its return type is
`'active' | 'warning' | 'triggered'`.  Time is in milliseconds and the
warning comparison is strict (`remaining < 7 days`). -/
def checkVaultStatus (v : Vault) (now : Int) : VaultStatus :=
  let inactivityMs := v.inactivityPeriod * msPerDay
  let elapsed := now - v.lastCheckIn
  let remaining := inactivityMs - elapsed
  if remaining ≤ 0 then .triggered
  else if remaining < 7 * msPerDay then .warning
  else .active

/-! ## Exact model of IEEE-754 double arithmetic

`WalletProvider.claimVault` (`part_005` line 451) computes
`Math.floor(vault.amountSats * (beneficiary.percentage / 100))` with
JavaScript numbers, i.e. IEEE-754 binary64.  We model a finite double
as the exact rational it denotes and each arithmetic operation as the
exact rational operation followed by rounding to 53 significant bits
with round-to-nearest, ties-to-even.  The operands occurring here
(satoshi amounts `< 2^53` and percentages `≤ 100`) are exactly
representable, and no intermediate result comes near overflow or the
subnormal range, so this rounding function coincides with binary64. -/

/-- An exact (unnormalized) fraction with positive denominator.  Used
instead of `ℚ` so that every operation reduces inside the kernel
(`Rat` normalization relies on `Nat.gcd`, which does not). -/
structure Frac where
  num : Int
  den : Int
deriving DecidableEq, Repr

/-- The rational value denoted by a fraction. -/
def Frac.val (a : Frac) : ℚ := (a.num : ℚ) / (a.den : ℚ)

/-- Exact product of fractions. -/
def Frac.mul (a b : Frac) : Frac := ⟨a.num * b.num, a.den * b.den⟩

/-- Exact quotient of fractions (both arguments positive in our use). -/
def Frac.div (a b : Frac) : Frac := ⟨a.num * b.den, a.den * b.num⟩

/-- Value comparison (denominators positive): `a < b`. -/
def Frac.lt (a b : Frac) : Bool := a.num * b.den < b.num * a.den

/-- Value comparison (denominators positive): `a ≤ b`. -/
def Frac.le (a b : Frac) : Bool := a.num * b.den ≤ b.num * a.den

/-- Floor of a fraction (`Int.fdiv` is floor division). -/
def Frac.floor (a : Frac) : Int := a.num.fdiv a.den

/-- Round the value of a fraction to the nearest integer, ties to even:
with `f = ⌊a⌋` and remainder `r = a - f`, compare `r` against `1/2` by
cross multiplication. -/
def Frac.roundTiesEven (a : Frac) : Int :=
  let f := a.floor
  let twice := 2 * (a.num - f * a.den)
  if twice < a.den then f
  else if a.den < twice then f + 1
  else if f % 2 = 0 then f else f + 1

/-- Shift a positive fraction into the binary64 mantissa window
`[2^52, 2^53)`, returning the shifted fraction and the shift amount.
The fuel bound 1200 exceeds the exponent range of finite doubles
(`|e| ≤ 1074 + 53`), so it never runs out on a value in range. -/
def scaleToWindow : Nat → Frac → Int → Frac × Int
  | 0, a, s => (a, s)
  | fuel + 1, a, s =>
      if a.lt ⟨4503599627370496, 1⟩ then
        scaleToWindow fuel ⟨a.num * 2, a.den⟩ (s + 1)
      else if (⟨9007199254740992, 1⟩ : Frac).le a then
        scaleToWindow fuel ⟨a.num, a.den * 2⟩ (s - 1)
      else (a, s)

/-- The fraction `m * 2^s`. -/
def fracOfMantissa (m : Int) (s : Int) : Frac :=
  match s with
  | .ofNat n => ⟨m * 2 ^ n, 1⟩
  | .negSucc n => ⟨m, 2 ^ (n + 1)⟩

/-- Round a positive fraction to 53 significant binary digits, ties to
even: shift into the mantissa window, round to an integer, shift back. -/
def roundPos (a : Frac) : Frac :=
  let ms := scaleToWindow 1200 a 0
  fracOfMantissa ms.1.roundTiesEven (-ms.2)

/-- Round a fraction to the nearest binary64 value (normal range;
overflow and the subnormal range do not occur for the operands at
hand). -/
def roundDouble (a : Frac) : Frac :=
  if a.num = 0 then ⟨0, 1⟩
  else if a.num < 0 then
    let p := roundPos ⟨-a.num, a.den⟩
    ⟨-p.num, p.den⟩
  else roundPos a

/-- JavaScript `/` on numbers: exact quotient, correctly rounded. -/
def jsDiv (a b : Frac) : Frac := roundDouble (a.div b)

/-- JavaScript `*` on numbers: exact product, correctly rounded. -/
def jsMul (a b : Frac) : Frac := roundDouble (a.mul b)

/-- `Math.floor(vault.amountSats * (beneficiary.percentage / 100))`
from `WalletProvider.claimVault` (`part_005` line 451), in exact
binary64 semantics (both operands are integers `< 2^53`, hence exactly
representable). -/
def claimAmountSats (amountSats percentage : Nat) : ℤ :=
  (jsMul ⟨amountSats, 1⟩ (jsDiv ⟨percentage, 1⟩ ⟨100, 1⟩)).floor

/-! ## PSBT builders (src/services/psbtBuilder.ts)

Each builder is modelled as a pure function from its numeric inputs to
an `Except` of the transaction candidate: the list of output values in
satoshis in emission order (the OP_RETURN output has value `0`) and the
fee reported in the `PsbtResult`.  Addresses, scripts and the PSBT
serialization carry no value and are omitted.  `feeRate` is an integer
(mempool.space tiers or the integer fallbacks `1`/`5`), so
`Math.ceil(estimatedSize * feeRate)` is the exact product. -/

/-- A built transaction candidate: emitted output values (sats, in
order, OP_RETURN as `0`) and the fee reported in `PsbtResult.fee`. -/
structure TxCandidate where
  outputs : List Int
  fee : Int
deriving DecidableEq, Repr

/-- `buildCreateVaultPsbt` (`psbtBuilder.ts` lines 90-174): inputs are
the supplied UTXO values; outputs are the vault output `amountSats`,
the OP_RETURN, and a change output only when `changeSats > 546`. -/
def buildCreateVaultPsbt (utxoValues : List Int) (amountSats feeRate : Int) :
    Except String TxCandidate :=
  let totalInputSats := utxoValues.sum
  let estimatedSize := (utxoValues.length : Int) * 68 + 31 + 31 + 100
  let estimatedFee := estimatedSize * feeRate
  if totalInputSats < amountSats + estimatedFee then
    .error "Insufficient funds"
  else
    let changeSats := totalInputSats - amountSats - estimatedFee
    .ok { outputs := [amountSats, 0] ++ (if 546 < changeSats then [changeSats] else []),
          fee := estimatedFee }

/-- `buildCheckInPsbt` (`psbtBuilder.ts` lines 181-235): one input (the
vault UTXO), outputs are the reduced vault output and the OP_RETURN. -/
def buildCheckInPsbt (vaultValue feeRate : Int) : Except String TxCandidate :=
  let estimatedFee := (68 + 31 + 50) * feeRate
  let outputAmount := vaultValue - estimatedFee
  if outputAmount < 546 then
    .error "Vault amount too small for check-in transaction"
  else
    .ok { outputs := [outputAmount, 0], fee := estimatedFee }

/-- `buildClaimPsbt` (`psbtBuilder.ts` lines 242-302): one input,
outputs are the claim output, a remainder output only when
`remainingAmount > 546`, and the OP_RETURN.  No funds check exists. -/
def buildClaimPsbt (vaultValue claimAmount feeRate : Int) :
    Except String TxCandidate :=
  let estimatedFee := (68 + 31 + 31 + 50) * feeRate
  let remainingAmount := vaultValue - claimAmount - estimatedFee
  .ok { outputs := [claimAmount] ++ (if 546 < remainingAmount then [remainingAmount] else []) ++ [0],
        fee := estimatedFee }

/-- `buildCancelPsbt` (`psbtBuilder.ts` lines 309-361): one input,
outputs are the refund to the owner and the OP_RETURN. -/
def buildCancelPsbt (vaultValue feeRate : Int) : Except String TxCandidate :=
  let estimatedFee := (68 + 31 + 50) * feeRate
  let outputAmount := vaultValue - estimatedFee
  if outputAmount < 546 then
    .error "Vault amount too small for cancellation"
  else
    .ok { outputs := [outputAmount, 0], fee := estimatedFee }

/-! ## OP_RETURN framing (psbtBuilder.buildOpReturnScript) -/

/-- `buildOpReturnScript` (`psbtBuilder.ts` lines 366-396).  Bytes are
naturals `< 256`; `data.length & 0xff` and `(data.length >> 8) & 0xff`
are `% 256` and `/ 256 % 256`.  The function is total: there is no
size ceiling and no failure path. -/
def buildOpReturnScript (data : List Nat) : List Nat :=
  if data.length ≤ 75 then
    0x6a :: data.length :: data
  else if data.length ≤ 255 then
    0x6a :: 0x4c :: data.length :: data
  else
    0x6a :: 0x4d :: (data.length % 256) :: (data.length / 256 % 256) :: data

/-! ## Vault ledger operations (WalletProvider, part_005)

The `checkIn`, `claimVault` and claimable-index logic of the current
`WalletProvider` as pure state transformations over the vault list.
We model the deterministic demo path; the real-wallet path differs
only in delegating signing/broadcast to external collaborators and
performs the same (absent) validations and the same state updates. -/

/-- JavaScript truthiness of `wallet.address : string | null`:
`null` and the empty string are falsy. -/
def addrTruthy : Option String → Bool
  | none => false
  | some s => s ≠ ""

/-- `String.prototype.toLowerCase` on one character (the addresses at
hand are ASCII; Unicode case folding beyond ASCII is not relevant to
the comparisons modelled here). -/
def lowerChar (c : Char) : Char :=
  if 'A' ≤ c ∧ c ≤ 'Z' then Char.ofNat (c.toNat + 32) else c

/-- `String.prototype.toLowerCase`, character by character. -/
def lowerString (s : String) : String := ⟨s.data.map lowerChar⟩

/-- `String.prototype.trim`: strip whitespace from both ends. -/
def jsTrim (s : String) : String :=
  ⟨((s.data.dropWhile Char.isWhitespace).reverse.dropWhile
      Char.isWhitespace).reverse⟩

/-- `WalletProvider.checkIn` (`part_005` lines 361-430): looks the
vault up by id and fails only when it is absent; no status check is
performed.  On success the target vault gets `lastCheckIn = now` and
`status = 'active'`. -/
def checkInOp (vaults : List Vault) (vaultId : String) (now : Int) :
    Except String (List Vault) :=
  match vaults.find? (fun v => v.id == vaultId) with
  | none => .error "Vault not found"
  | some _ =>
      .ok (vaults.map fun v =>
        if v.id == vaultId then { v with lastCheckIn := now, status := .active } else v)

/-- Result of a successful `claimVault`: the updated vault list and the
satoshi amount credited to the caller. -/
structure ClaimResult where
  vaults : List Vault
  claimedSats : Int
deriving DecidableEq, Repr

/-- `WalletProvider.claimVault` (`part_005` lines 433-514): fails when
the vault is absent or no wallet address is set, fails with the
not-a-beneficiary message when the caller's address (compared
lowercased) is not among the beneficiaries, and otherwise succeeds —
the vault's status is never consulted.  On success the vault is marked
`'claimed'` and the caller is credited
`Math.floor(amountSats * (percentage / 100))` satoshis. -/
def claimVaultOp (vaults : List Vault) (vaultId : String)
    (walletAddress : Option String) : Except String ClaimResult :=
  match vaults.find? (fun v => v.id == vaultId), walletAddress with
  | some vault, some addr =>
      if addr = "" then .error "Vault not found or wallet not connected"
      else
        match vault.beneficiaries.find?
            (fun b => lowerString b.address == lowerString addr) with
        | none => .error "You are not a beneficiary of this vault"
        | some b =>
            .ok { vaults := vaults.map fun v =>
                    if v.id == vaultId then { v with status := .claimed } else v,
                  claimedSats := claimAmountSats vault.amountSats b.percentage }
  | _, _ => .error "Vault not found or wallet not connected"

/-- The derived claimable-vault index (`part_005` lines 152-164): when
no wallet address is set the index is empty; otherwise it keeps the
vaults whose status is `'triggered'` and that list some beneficiary
whose lowercased address equals the lowercased wallet address. -/
def claimableVaults (vaults : List Vault) : Option String → List Vault
  | none => []
  | some addr =>
      if addr = "" then []
      else vaults.filter fun v =>
        v.status == .triggered &&
          v.beneficiaries.any fun b => lowerString b.address == lowerString addr

/-! ## CreateVault wizard (README.md CreateVault page listing)

The wizard advances through steps 1-4; `handleNext` advances only when
`validateStep` passes, the beneficiary inputs (name, address,
percentage with `parseInt(...) || 0`) are rendered only at step 2, and
the submit button is rendered only at step 4.  Step-1 validation (vault
name and amount) does not involve beneficiaries and is conservatively
modelled as always passing, which only enlarges the reachable state
space. -/

/-- `totalPercentage` (README line 646):
`beneficiaries.reduce((sum, b) => sum + (b.percentage || 0), 0)`. -/
def totalPercentage (bs : List Beneficiary) : Nat :=
  (bs.map (fun b => b.percentage)).sum

/-- Step-2 branch of `validateStep` (README lines 667-681): `none`
means the step validates, `some msg` is the validation error set. -/
def validateStep2 (bs : List Beneficiary) : Option String :=
  if bs.any fun b => jsTrim b.name == "" then
    some "All beneficiaries must have a name"
  else if bs.any fun b => jsTrim b.address == "" then
    some "All beneficiaries must have an address"
  else if totalPercentage bs ≠ 100 then
    some "Total percentage must equal 100%"
  else none

/-- `validateStep` restricted to the data the wizard threads through it:
steps 1, 3 and the default branch do not inspect beneficiaries. -/
def validateStepPasses (stepNum : Nat) (bs : List Beneficiary) : Bool :=
  match stepNum with
  | 2 => validateStep2 bs == none
  | _ => true

/-- Wizard state: the current step and the beneficiary list. -/
structure WizardState where
  step : Nat
  beneficiaries : List Beneficiary
deriving DecidableEq, Repr

/-- `handleNext` (README lines 691-695): advance only when the current
step validates. -/
def wizardNext (s : WizardState) : WizardState :=
  if validateStepPasses s.step s.beneficiaries then
    { s with step := s.step + 1 }
  else s

/-- `handleBack` (README lines 697-700). -/
def wizardBack (s : WizardState) : WizardState :=
  { s with step := s.step - 1 }

/-- Beneficiary edits (`handleAddBeneficiary`, `handleRemoveBeneficiary`,
`handleBeneficiaryChange`): the controls are rendered inside the
`step === 2` block only (README lines 825-920), so edits apply only at
step 2.  Any replacement list is allowed. -/
def wizardEdit (s : WizardState) (bs : List Beneficiary) : WizardState :=
  if s.step = 2 then { s with beneficiaries := bs } else s

/-- Initial state (README lines 633-636): step 1, a single blank
beneficiary with percentage 100. -/
def wizardInit : WizardState :=
  { step := 1, beneficiaries := [⟨"1", "", "", 100⟩] }

/-- States the wizard can reach from its initial state. -/
inductive WizardReachable : WizardState → Prop
  | init : WizardReachable wizardInit
  | next {s} : WizardReachable s → WizardReachable (wizardNext s)
  | back {s} : WizardReachable s → WizardReachable (wizardBack s)
  | edit {s} (bs : List Beneficiary) :
      WizardReachable s → WizardReachable (wizardEdit s bs)

/-! ## Spell payload encoding (psbtBuilder createXSpellData)

The four `create*SpellData` methods build a JavaScript object literal,
serialize it with `JSON.stringify`, and UTF-8 encode the result with
`TextEncoder`.  `encodeSpellChars` reproduces that JSON text exactly —
same key order (JS object-literal insertion order), same
`JSON.stringify` string escaping, integers printed in decimal — and
`encodeSpellBytes` applies UTF-8.  No decoder exists in the repository;
the decoder below is modelled from the spec. -/

/-- Beneficiary entry of a CreateVault spell (`{addr, name, pct}` from
`createVaultSpellData`). -/
structure SpellBeneficiary where
  address : String
  name : String
  percentage : Nat
deriving DecidableEq, Repr

/-- The four spell payloads (`psbtBuilder.ts` lines 408-501), carrying
the fields the corresponding `create*SpellData` method serializes. -/
inductive SpellPayload where
  | createVault (vaultId owner : String) (beneficiaries : List SpellBeneficiary)
      (inactivityPeriodDays amountSats createdAt : Nat)
  | checkIn (vaultId : String) (timestamp : Nat)
  | claim (vaultId beneficiary : String) (amount timestamp : Nat)
  | cancel (vaultId : String) (timestamp : Nat)
deriving DecidableEq, Repr

/-- Lower-case hexadecimal digit, as printed by `JSON.stringify` in
`\u00XX` escapes. -/
def hexDigitChar (n : Nat) : Char :=
  if n < 10 then Char.ofNat (48 + n) else Char.ofNat (87 + n)

/-- `JSON.stringify` string escaping for one character: `"` and `\`
get a backslash, the named controls use `\b \t \n \f \r`, the other
control characters use `\u00XX`, everything else is emitted as is. -/
def escapeChar (c : Char) : List Char :=
  if c = '"' then ['\\', '"']
  else if c = '\\' then ['\\', '\\']
  else if c.toNat = 8 then ['\\', 'b']
  else if c.toNat = 9 then ['\\', 't']
  else if c.toNat = 10 then ['\\', 'n']
  else if c.toNat = 12 then ['\\', 'f']
  else if c.toNat = 13 then ['\\', 'r']
  else if c.toNat < 32 then
    ['\\', 'u', '0', '0', hexDigitChar (c.toNat / 16), hexDigitChar (c.toNat % 16)]
  else [c]

/-- Escaped character data of a string. -/
def escString (s : String) : List Char := (s.data.map escapeChar).flatten

/-- A JSON string literal: `"` + escaped characters + `"`. -/
def quoteJson (s : String) : List Char := '"' :: (escString s ++ ['"'])

/-- Decimal digit character. -/
def digitChar (d : Nat) : Char := Char.ofNat (48 + d)

/-- The decimal digit values of `n`, most significant first; `fuel`
bounds the recursion depth (`n < 10 ^ fuel`). -/
def natDigitVals : Nat → Nat → List Nat
  | 0, _ => []
  | fuel + 1, n =>
      if n < 10 then [n] else natDigitVals fuel (n / 10) ++ [n % 10]

/-- Decimal representation of `n` as printed by `JSON.stringify` for
integers below `2^53` (60 digits of fuel are ample). -/
def natChars (n : Nat) : List Char := (natDigitVals 60 n).map digitChar

/-- One serialized beneficiary:
`{"addr":A,"name":N,"pct":P}`. -/
def encBen (b : SpellBeneficiary) : List Char :=
  "\x7b\"addr\":".data ++ quoteJson b.address ++
  ",\"name\":".data ++ quoteJson b.name ++
  ",\"pct\":".data ++ natChars b.percentage ++ "\x7d".data

/-- Comma-separated beneficiary objects (the inside of the JSON
array). -/
def encBensInner : List SpellBeneficiary → List Char
  | [] => []
  | [b] => encBen b
  | b :: bs => encBen b ++ ',' :: encBensInner bs

/-- The common JSON prefix
`{"protocol":"bitwill","version":1,"action":A,"data":{`. -/
def spellHeader (action : String) : List Char :=
  "\x7b\"protocol\":\"bitwill\",\"version\":1,\"action\":".data ++
    quoteJson action ++ ",\"data\":\x7b".data

/-- The exact `JSON.stringify` output of the spell object built by the
corresponding `create*SpellData` method (`psbtBuilder.ts` 408-501):
property order is the object-literal insertion order, `inactivity` is
`inactivityPeriodDays * 86400`, and both `created` and `lastCheckIn`
receive `createdAt`. -/
def encodeSpellChars : SpellPayload → List Char
  | .createVault vid owner bens days amount created =>
      spellHeader "create_vault" ++
      "\"id\":".data ++ quoteJson vid ++
      ",\"owner\":".data ++ quoteJson owner ++
      ",\"beneficiaries\":[".data ++ encBensInner bens ++ "]".data ++
      ",\"inactivity\":".data ++ natChars (days * 86400) ++
      ",\"amount\":".data ++ natChars amount ++
      ",\"created\":".data ++ natChars created ++
      ",\"lastCheckIn\":".data ++ natChars created ++
      ",\"status\":\"active\"\x7d\x7d".data
  | .checkIn vid t =>
      spellHeader "check_in" ++
      "\"vaultId\":".data ++ quoteJson vid ++
      ",\"timestamp\":".data ++ natChars t ++ "\x7d\x7d".data
  | .claim vid ben amount t =>
      spellHeader "claim" ++
      "\"vaultId\":".data ++ quoteJson vid ++
      ",\"beneficiary\":".data ++ quoteJson ben ++
      ",\"amount\":".data ++ natChars amount ++
      ",\"timestamp\":".data ++ natChars t ++ "\x7d\x7d".data
  | .cancel vid t =>
      spellHeader "cancel" ++
      "\"vaultId\":".data ++ quoteJson vid ++
      ",\"timestamp\":".data ++ natChars t ++ "\x7d\x7d".data

/-- UTF-8 bytes of one character (`TextEncoder.encode`). -/
def utf8Bytes (c : Char) : List Nat :=
  let u := c.toNat
  if u < 0x80 then [u]
  else if u < 0x800 then [0xC0 + u / 64, 0x80 + u % 64]
  else if u < 0x10000 then
    [0xE0 + u / 4096, 0x80 + u / 64 % 64, 0x80 + u % 64]
  else
    [0xF0 + u / 262144, 0x80 + u / 4096 % 64, 0x80 + u / 64 % 64, 0x80 + u % 64]

/-- `TextEncoder().encode(JSON.stringify(spell))`: the byte blob the
builders hand to `buildOpReturnScript`. -/
def encodeSpellBytes (p : SpellPayload) : List Nat :=
  ((encodeSpellChars p).map utf8Bytes).flatten

/-- Valid JSON-number field: a non-negative safe JavaScript integer
(`< 2^53`), which `JSON.stringify` prints as plain decimal digits. -/
def validNat (n : Nat) : Prop := n < 9007199254740992

/-- Modelled from the spec: a payload is valid when every numeric field
is a safe integer (the spec's payload fields are satoshi amounts, Unix
timestamps and percentages; strings are unrestricted).  For
CreateVault the serialized `inactivity` is `days * 86400`, so that
product must be safe. -/
def validPayload : SpellPayload → Prop
  | .createVault _ _ bens days amount created =>
      validNat (days * 86400) ∧ validNat amount ∧ validNat created ∧
        ∀ b ∈ bens, validNat b.percentage
  | .checkIn _ t => validNat t
  | .claim _ _ amount t => validNat amount ∧ validNat t
  | .cancel _ t => validNat t

/-! ### Decoder (modelled from the spec)

`Modelled from the spec: decode(bytes) -> payload.`  No decoder exists
anywhere in the repository sources — only the four encoders.  The spec
(§4.2) requires `decode(encode(p)) == p` with the framing of
`buildOpReturnScript`; the decoder below parses exactly that framing,
UTF-8, and the JSON grammar emitted by the encoders. -/

/-- Modelled from the spec: strip the OP_RETURN framing, recovering
the pushed payload; fails when the length field does not match (as it
cannot for a payload beyond the two-byte 65535 ceiling). -/
def parseOpReturn (script : List Nat) : Option (List Nat) :=
  match script with
  | op :: len1 :: rest =>
      if op ≠ 0x6a then none
      else if len1 ≤ 75 then
        if rest.length = len1 then some rest else none
      else if len1 = 0x4c then
        match rest with
        | n :: rest2 => if rest2.length = n then some rest2 else none
        | [] => none
      else if len1 = 0x4d then
        match rest with
        | lo :: hi :: rest2 =>
            if rest2.length = lo + 256 * hi then some rest2 else none
        | _ => none
      else none
  | _ => none

/-- Modelled from the spec: decode one UTF-8 sequence from the front
of the byte list, with the standard validity checks (continuation
ranges, overlong forms, surrogates, the Unicode ceiling). -/
def utf8Step : List Nat → Option (Char × List Nat)
  | [] => none
  | b1 :: rest =>
      if b1 < 128 then some (Char.ofNat b1, rest)
      else if b1 < 192 then none
      else if b1 < 224 then
        match rest with
        | b2 :: rest2 =>
            if 128 ≤ b2 ∧ b2 < 192 then
              let u := (b1 - 192) * 64 + (b2 - 128)
              if 128 ≤ u then some (Char.ofNat u, rest2) else none
            else none
        | [] => none
      else if b1 < 240 then
        match rest with
        | b2 :: b3 :: rest2 =>
            if (128 ≤ b2 ∧ b2 < 192) ∧ (128 ≤ b3 ∧ b3 < 192) then
              let u := (b1 - 224) * 4096 + (b2 - 128) * 64 + (b3 - 128)
              if 2048 ≤ u ∧ ¬(55296 ≤ u ∧ u < 57344) then
                some (Char.ofNat u, rest2)
              else none
            else none
        | _ => none
      else if b1 < 248 then
        match rest with
        | b2 :: b3 :: b4 :: rest2 =>
            if (128 ≤ b2 ∧ b2 < 192) ∧ (128 ≤ b3 ∧ b3 < 192) ∧
                (128 ≤ b4 ∧ b4 < 192) then
              let u := (b1 - 240) * 262144 + (b2 - 128) * 4096 +
                (b3 - 128) * 64 + (b4 - 128)
              if 65536 ≤ u ∧ u < 1114112 then some (Char.ofNat u, rest2)
              else none
            else none
        | _ => none
      else none

/-- Modelled from the spec: UTF-8 decode with a fuel bound on the
number of characters. -/
def utf8DecodeF : Nat → List Nat → Option (List Char)
  | 0, bs => if bs = [] then some [] else none
  | fuel + 1, bs =>
      if bs = [] then some []
      else
        (utf8Step bs).bind fun pr =>
          (utf8DecodeF fuel pr.2).map fun cs => pr.1 :: cs

/-- Modelled from the spec: UTF-8 decoding of a byte blob (a byte list
never holds more characters than bytes, so the length is enough
fuel). -/
def utf8Decode (bs : List Nat) : Option (List Char) :=
  utf8DecodeF bs.length bs

/-- Consume an expected literal character sequence. -/
def parseLit : List Char → List Char → Option (List Char)
  | [], s => some s
  | _ :: _, [] => none
  | p :: ps, c :: cs => if c = p then parseLit ps cs else none

/-- Parse one lower-case hexadecimal digit. -/
def parseHexDigit (c : Char) : Option Nat :=
  if '0' ≤ c ∧ c ≤ '9' then some (c.toNat - 48)
  else if 'a' ≤ c ∧ c ≤ 'f' then some (c.toNat - 87)
  else none

/-- Parse the body of a JSON string (opening quote already consumed)
up to and including the closing quote, undoing `JSON.stringify`
escapes. -/
def parseStrChars : List Char → Option (List Char × List Char)
  | [] => none
  | c :: cs =>
      if c = '"' then some ([], cs)
      else if c = '\\' then
        match cs with
        | [] => none
        | e :: cs2 =>
            if e = '"' then
              (parseStrChars cs2).map fun pr => ('"' :: pr.1, pr.2)
            else if e = '\\' then
              (parseStrChars cs2).map fun pr => ('\\' :: pr.1, pr.2)
            else if e = 'b' then
              (parseStrChars cs2).map fun pr => (Char.ofNat 8 :: pr.1, pr.2)
            else if e = 't' then
              (parseStrChars cs2).map fun pr => (Char.ofNat 9 :: pr.1, pr.2)
            else if e = 'n' then
              (parseStrChars cs2).map fun pr => (Char.ofNat 10 :: pr.1, pr.2)
            else if e = 'f' then
              (parseStrChars cs2).map fun pr => (Char.ofNat 12 :: pr.1, pr.2)
            else if e = 'r' then
              (parseStrChars cs2).map fun pr => (Char.ofNat 13 :: pr.1, pr.2)
            else if e = 'u' then
              match cs2 with
              | h1 :: h2 :: h3 :: h4 :: cs3 =>
                  match parseHexDigit h1, parseHexDigit h2,
                      parseHexDigit h3, parseHexDigit h4 with
                  | some d1, some d2, some d3, some d4 =>
                      let u := ((d1 * 16 + d2) * 16 + d3) * 16 + d4
                      if u < 0xD800 then
                        (parseStrChars cs3).map fun pr =>
                          (Char.ofNat u :: pr.1, pr.2)
                      else none
                  | _, _, _, _ => none
              | _ => none
            else none
      else (parseStrChars cs).map fun pr => (c :: pr.1, pr.2)

/-- Expect a full JSON string literal, opening quote included. -/
def parseQuoted : List Char → Option (List Char × List Char)
  | '"' :: rest => parseStrChars rest
  | _ => none

/-- Decimal digit predicate. -/
def isDigitCh (c : Char) : Bool := '0' ≤ c ∧ c ≤ '9'

/-- Greedily take decimal digits, returning their values. -/
def parseDigits : List Char → List Nat × List Char
  | [] => ([], [])
  | c :: cs =>
      if isDigitCh c then
        let pr := parseDigits cs
        ((c.toNat - 48) :: pr.1, pr.2)
      else ([], c :: cs)

/-- Value of a most-significant-first digit list. -/
def digitsVal (ds : List Nat) : Nat := ds.foldl (fun acc d => acc * 10 + d) 0

/-- Parse a non-empty run of decimal digits as a natural number. -/
def parseNat (s : List Char) : Option (Nat × List Char) :=
  match parseDigits s with
  | ([], _) => none
  | (ds, r) => some (digitsVal ds, r)

/-- Parse one serialized beneficiary object. -/
def parseBen (s : List Char) : Option (SpellBeneficiary × List Char) :=
  (parseLit "\x7b\"addr\":".data s).bind fun s1 =>
  (parseQuoted s1).bind fun pr1 =>
  (parseLit ",\"name\":".data pr1.2).bind fun s2 =>
  (parseQuoted s2).bind fun pr2 =>
  (parseLit ",\"pct\":".data pr2.2).bind fun s3 =>
  (parseNat s3).bind fun pr3 =>
  (parseLit "\x7d".data pr3.2).map fun s4 =>
  (⟨⟨pr1.1⟩, ⟨pr2.1⟩, pr3.1⟩, s4)

/-- Parse the comma-separated beneficiary objects up to and including
the closing `]`; the fuel bounds the number of entries. -/
def parseBens : Nat → List Char → Option (List SpellBeneficiary × List Char)
  | 0, _ => none
  | fuel + 1, s =>
      match s with
      | ']' :: rest => some ([], rest)
      | _ =>
          (parseBen s).bind fun pr =>
          match pr.2 with
          | ',' :: s2 => (parseBens fuel s2).map fun pr2 => (pr.1 :: pr2.1, pr2.2)
          | ']' :: s2 => some ([pr.1], s2)
          | _ => none

/-- Parse the `data` object of a `create_vault` spell and the closing
braces. -/
def decodeCreateTail (s : List Char) : Option SpellPayload :=
  (parseLit "\"id\":".data s).bind fun s1 =>
  (parseQuoted s1).bind fun vid =>
  (parseLit ",\"owner\":".data vid.2).bind fun s2 =>
  (parseQuoted s2).bind fun owner =>
  (parseLit ",\"beneficiaries\":[".data owner.2).bind fun s3 =>
  (parseBens (s3.length + 1) s3).bind fun bens =>
  (parseLit ",\"inactivity\":".data bens.2).bind fun s4 =>
  (parseNat s4).bind fun inact =>
  (parseLit ",\"amount\":".data inact.2).bind fun s5 =>
  (parseNat s5).bind fun amount =>
  (parseLit ",\"created\":".data amount.2).bind fun s6 =>
  (parseNat s6).bind fun created =>
  (parseLit ",\"lastCheckIn\":".data created.2).bind fun s7 =>
  (parseNat s7).bind fun lastCI =>
  (parseLit ",\"status\":\"active\"\x7d\x7d".data lastCI.2).bind fun s8 =>
  if s8 = [] ∧ lastCI.1 = created.1 then
    some (.createVault ⟨vid.1⟩ ⟨owner.1⟩ bens.1
      (inact.1 / 86400) amount.1 created.1)
  else none

/-- Parse the `data` object of a `check_in` spell. -/
def decodeCheckInTail (s : List Char) : Option SpellPayload :=
  (parseLit "\"vaultId\":".data s).bind fun s1 =>
  (parseQuoted s1).bind fun vid =>
  (parseLit ",\"timestamp\":".data vid.2).bind fun s2 =>
  (parseNat s2).bind fun t =>
  (parseLit "\x7d\x7d".data t.2).bind fun s3 =>
  if s3 = [] then some (.checkIn ⟨vid.1⟩ t.1) else none

/-- Parse the `data` object of a `claim` spell. -/
def decodeClaimTail (s : List Char) : Option SpellPayload :=
  (parseLit "\"vaultId\":".data s).bind fun s1 =>
  (parseQuoted s1).bind fun vid =>
  (parseLit ",\"beneficiary\":".data vid.2).bind fun s2 =>
  (parseQuoted s2).bind fun ben =>
  (parseLit ",\"amount\":".data ben.2).bind fun s3 =>
  (parseNat s3).bind fun amount =>
  (parseLit ",\"timestamp\":".data amount.2).bind fun s4 =>
  (parseNat s4).bind fun t =>
  (parseLit "\x7d\x7d".data t.2).bind fun s5 =>
  if s5 = [] then some (.claim ⟨vid.1⟩ ⟨ben.1⟩ amount.1 t.1) else none

/-- Parse the `data` object of a `cancel` spell. -/
def decodeCancelTail (s : List Char) : Option SpellPayload :=
  (parseLit "\"vaultId\":".data s).bind fun s1 =>
  (parseQuoted s1).bind fun vid =>
  (parseLit ",\"timestamp\":".data vid.2).bind fun s2 =>
  (parseNat s2).bind fun t =>
  (parseLit "\x7d\x7d".data t.2).bind fun s3 =>
  if s3 = [] then some (.cancel ⟨vid.1⟩ t.1) else none

/-- Modelled from the spec: decode a spell's JSON text — parse the
fixed header, dispatch on the action name, parse the action-specific
fields. -/
def decodeSpellChars (s : List Char) : Option SpellPayload :=
  (parseLit "\x7b\"protocol\":\"bitwill\",\"version\":1,\"action\":".data s).bind
    fun s1 =>
  (parseQuoted s1).bind fun act =>
  (parseLit ",\"data\":\x7b".data act.2).bind fun s2 =>
  if act.1 = "create_vault".data then decodeCreateTail s2
  else if act.1 = "check_in".data then decodeCheckInTail s2
  else if act.1 = "claim".data then decodeClaimTail s2
  else if act.1 = "cancel".data then decodeCancelTail s2
  else none

/-- Modelled from the spec: `decode(bytes) -> payload` — UTF-8 decode
the blob, then parse the JSON text. -/
def decodeSpell (bytes : List Nat) : Option SpellPayload :=
  (utf8Decode bytes).bind decodeSpellChars

/-! ## Helper lemmas -/

/-- A step-2 validation pass forces the percentage total to be 100. -/
theorem validateStep2_none_total {bs : List Beneficiary}
    (h : validateStep2 bs = none) : totalPercentage bs = 100 := by
  unfold validateStep2 at h
  split_ifs at h with h1 h2 h3
  exact not_not.mp h3

/-- `find?` by vault id commutes with mapping an id-preserving update
over the ledger. -/
theorem find_map_id_preserving (l : List Vault) (vaultId : String)
    (f : Vault → Vault) (hf : ∀ v, (f v).id = v.id) :
    (l.map f).find? (fun v => v.id == vaultId) =
      (l.find? (fun v => v.id == vaultId)).map f := by
  induction l with
  | nil => rfl
  | cons x xs ih =>
      rw [List.map_cons]
      by_cases hx : (x.id == vaultId) = true
      · have hfx : ((fun v => v.id == vaultId) (f x)) = true := by
          simp only [hf]; exact hx
        rw [List.find?_cons_of_pos (List.map f xs) hfx,
          List.find?_cons_of_pos xs hx, Option.map_some']
      · have hfx : ¬ ((fun v => v.id == vaultId) (f x)) = true := by
          simp only [hf]; exact hx
        rw [List.find?_cons_of_neg (List.map f xs) hfx,
          List.find?_cons_of_neg xs hx, ih]

/-- Unfolding equation for `claimVaultOp` when the vault lookup
succeeds. -/
theorem claimVaultOp_some_eq (vaults : List Vault) (vaultId addr : String)
    (v : Vault) (hfind : vaults.find? (fun v => v.id == vaultId) = some v) :
    claimVaultOp vaults vaultId (some addr) =
      (if addr = "" then .error "Vault not found or wallet not connected"
       else
        match v.beneficiaries.find?
            (fun b => lowerString b.address == lowerString addr) with
        | none => .error "You are not a beneficiary of this vault"
        | some b =>
            .ok ⟨vaults.map fun w =>
                   if w.id == vaultId then { w with status := .claimed } else w,
                 claimAmountSats v.amountSats b.percentage⟩) := by
  unfold claimVaultOp
  rw [hfind]

/-- Unfolding equation for `claimVaultOp` when the vault lookup
fails. -/
theorem claimVaultOp_none_eq (vaults : List Vault) (vaultId : String)
    (addrOpt : Option String)
    (hfind : vaults.find? (fun v => v.id == vaultId) = none) :
    claimVaultOp vaults vaultId addrOpt =
      .error "Vault not found or wallet not connected" := by
  unfold claimVaultOp
  rw [hfind]

/-! ## Claim theorems -/

/-- **C2, counterexample.**  The claim says every time-based status
derivation returns a stored terminal status unchanged.
`CharmsService.checkVaultStatus` recomputes a live status for a vault
stored as `claimed`, and the older `WalletProvider` effect recomputes
one for a vault stored as `cancelled`. -/
theorem claim_C2_counterexample :
    checkVaultStatus ⟨"v1", "own", 1000, [], 30, 0, .claimed⟩ (30 * msPerDay) =
        .triggered ∧
    updateStatusOld ⟨"v2", "own", 1000, [], 30, 0, .cancelled⟩ (31 * msPerDay) =
        .triggered := by
  exact ⟨rfl, rfl⟩

/-- **C2, amended.**  The current `WalletProvider` status-update effect
returns `claimed` and `cancelled` unchanged for every current time,
and the older variant does so for `claimed`; stickiness fails only for
`CharmsService.checkVaultStatus` (which ignores the stored status) and
for `cancelled` under the older effect. -/
theorem claim_C2_amended :
    (∀ (v : Vault) (now : Int), v.status = .claimed ∨ v.status = .cancelled →
        updateStatus v now = v.status) ∧
    (∀ (v : Vault) (now : Int), v.status = .claimed →
        updateStatusOld v now = v.status) := by
  constructor
  · intro v now h
    unfold updateStatus
    rw [if_pos h]
  · intro v now h
    unfold updateStatusOld
    rw [if_pos h]

/-- **C2, witness.** -/
theorem claim_C2_witness :
    updateStatus ⟨"v1", "own", 1000, [], 30, 0, .claimed⟩ 999999999999 = .claimed ∧
    updateStatusOld ⟨"v1", "own", 1000, [], 30, 0, .claimed⟩ 999999999999 = .claimed :=
  ⟨claim_C2_amended.1 _ 999999999999 (Or.inl rfl),
   claim_C2_amended.2 _ 999999999999 rfl⟩

/-- **C3, counterexample.**  The claim says CheckIn on a `triggered`
vault fails with `InvalidStateTransition` and leaves the vault
unchanged.  In the code, `WalletProvider.checkIn` performs no status
check: on a triggered vault it succeeds, resets `lastCheckIn` and sets
the status back to `active`. -/
theorem claim_C3_counterexample :
    checkInOp [⟨"v1", "own", 1000, [], 30, 0, .triggered⟩] "v1" 77 =
      .ok [⟨"v1", "own", 1000, [], 30, 77, .active⟩] := rfl

/-- **C3, amended.**  `checkIn` succeeds exactly when a vault with the
requested id exists, regardless of its status (the only failure is
"Vault not found"); on success the matching vault gets
`lastCheckIn = now` and status `active`, other vaults are unchanged. -/
theorem claim_C3_amended (vaults : List Vault) (vaultId : String) (now : Int) :
    ((∃ vs, checkInOp vaults vaultId now = .ok vs) ↔ ∃ v ∈ vaults, v.id = vaultId) ∧
    (∀ vs, checkInOp vaults vaultId now = .ok vs →
      vs = vaults.map fun v =>
        if v.id == vaultId then { v with lastCheckIn := now, status := .active }
        else v) := by
  unfold checkInOp
  cases h : vaults.find? (fun v => v.id == vaultId) with
  | none =>
      refine ⟨⟨fun ⟨vs, hvs⟩ => by simp at hvs, fun ⟨v, hv, hid⟩ => ?_⟩,
        fun vs hvs => by simp at hvs⟩
      have := List.find?_eq_none.mp h v hv
      simp [hid] at this
  | some w =>
      refine ⟨⟨fun _ => ⟨w, List.mem_of_find?_eq_some h, ?_⟩, fun _ => ⟨_, rfl⟩⟩,
        fun vs hvs => ?_⟩
      · simpa using List.find?_some h
      · simpa using hvs.symm

/-- **C3, witness.** -/
theorem claim_C3_witness :
    (∃ vs, checkInOp [⟨"v1", "own", 1000, [], 30, 0, .active⟩] "v1" 5 = .ok vs) ∧
    ([⟨"v1", "own", 1000, [], 30, 5, .active⟩] : List Vault) =
      [⟨"v1", "own", 1000, [], 30, 0, .active⟩].map fun v =>
        if v.id == "v1" then { v with lastCheckIn := 5, status := .active } else v :=
  ⟨(claim_C3_amended _ "v1" 5).1.mpr ⟨_, List.mem_singleton.mpr rfl, rfl⟩,
   (claim_C3_amended _ "v1" 5).2 _ rfl⟩

/-- **C5, code bug.**  The spec mandates
`claimAmountSats = floor(vaultValue * pct / 100)` in exact integer
satoshi arithmetic; the code computes
`Math.floor(amountSats * (percentage / 100))` in binary64 doubles.  At
`amountSats = 100`, `percentage = 29` the double product is
`28.999999999999996`, so the code yields 28 where the specified exact
formula yields 29.  The spec's own `[50,30,20]` example on a
100,000,000-sat vault happens to agree in both arithmetics. -/
theorem claim_C5_code_bug :
    claimAmountSats 100 29 = 28 ∧ (100 * 29 : ℤ) / 100 = 29 ∧
    claimAmountSats 100000000 50 = 50000000 ∧
    claimAmountSats 100000000 30 = 30000000 ∧
    claimAmountSats 100000000 20 = 20000000 :=
  ⟨rfl, rfl, rfl, rfl, rfl⟩

/-- **C4, counterexample.**  The claim says Claim is valid only when
the vault is `triggered`.  In the code, `WalletProvider.claimVault`
never consults the status: a beneficiary's claim on an `active` vault
succeeds (and marks the vault claimed). -/
theorem claim_C4_counterexample :
    claimVaultOp [⟨"v1", "own", 1000, [⟨"b1", "Bob", "BOB", 50⟩], 30, 0, .active⟩]
        "v1" (some "bob") =
      .ok ⟨[⟨"v1", "own", 1000, [⟨"b1", "Bob", "BOB", 50⟩], 30, 0, .claimed⟩], 500⟩ := rfl

/-- **C4, amended.**  For an existing vault and a connected wallet,
`claimVault` fails with the not-a-beneficiary error exactly when the
caller's lowercased address matches no beneficiary, and succeeds for
any matching beneficiary regardless of the vault's status; on success
the vault is marked `claimed` and the credited amount is the binary64
`Math.floor(amountSats * (percentage / 100))`. -/
theorem claim_C4_amended (vaults : List Vault) (vaultId addr : String) (v : Vault)
    (hfind : vaults.find? (fun v => v.id == vaultId) = some v) (haddr : addr ≠ "") :
    (v.beneficiaries.find? (fun b => lowerString b.address == lowerString addr) = none →
       claimVaultOp vaults vaultId (some addr) =
         .error "You are not a beneficiary of this vault") ∧
    (∀ b, v.beneficiaries.find?
        (fun b => lowerString b.address == lowerString addr) = some b →
       claimVaultOp vaults vaultId (some addr) =
         .ok ⟨vaults.map fun w =>
                if w.id == vaultId then { w with status := .claimed } else w,
              claimAmountSats v.amountSats b.percentage⟩) := by
  rw [claimVaultOp_some_eq vaults vaultId addr v hfind, if_neg haddr]
  constructor
  · intro hnone
    rw [hnone]
  · intro b hb
    rw [hb]

/-- **C4, witness.** -/
theorem claim_C4_witness :
    (claimVaultOp [⟨"v1", "own", 1000, [⟨"b1", "Bob", "bob", 50⟩], 30, 0, .triggered⟩]
        "v1" (some "eve") = .error "You are not a beneficiary of this vault") ∧
    (claimVaultOp [⟨"v1", "own", 1000, [⟨"b1", "Bob", "bob", 50⟩], 30, 0, .triggered⟩]
        "v1" (some "BOB") =
      .ok ⟨[⟨"v1", "own", 1000, [⟨"b1", "Bob", "bob", 50⟩], 30, 0, .claimed⟩], 500⟩) := by
  constructor
  · exact (claim_C4_amended
      [⟨"v1", "own", 1000, [⟨"b1", "Bob", "bob", 50⟩], 30, 0, .triggered⟩] "v1" "eve"
      ⟨"v1", "own", 1000, [⟨"b1", "Bob", "bob", 50⟩], 30, 0, .triggered⟩
      rfl (by decide)).1 rfl
  · exact ((claim_C4_amended
      [⟨"v1", "own", 1000, [⟨"b1", "Bob", "bob", 50⟩], 30, 0, .triggered⟩] "v1" "BOB"
      ⟨"v1", "own", 1000, [⟨"b1", "Bob", "bob", 50⟩], 30, 0, .triggered⟩
      rfl (by decide)).2 ⟨"b1", "Bob", "bob", 50⟩ rfl).trans rfl

/-- **C9, counterexample.**  The claim says that after one beneficiary
claims, no subsequent claim by another beneficiary succeeds.  In the
code the vault is marked `claimed`, but `claimVault` never checks the
status, so a second beneficiary's claim succeeds as well. -/
theorem claim_C9_counterexample :
    claimVaultOp
        [⟨"v1", "own", 1000, [⟨"b1", "Alice", "alice", 50⟩, ⟨"b2", "Bob", "bob", 50⟩],
          30, 0, .triggered⟩] "v1" (some "alice") =
      .ok ⟨[⟨"v1", "own", 1000, [⟨"b1", "Alice", "alice", 50⟩, ⟨"b2", "Bob", "bob", 50⟩],
            30, 0, .claimed⟩], 500⟩ ∧
    claimVaultOp
        [⟨"v1", "own", 1000, [⟨"b1", "Alice", "alice", 50⟩, ⟨"b2", "Bob", "bob", 50⟩],
          30, 0, .claimed⟩] "v1" (some "bob") =
      .ok ⟨[⟨"v1", "own", 1000, [⟨"b1", "Alice", "alice", 50⟩, ⟨"b2", "Bob", "bob", 50⟩],
            30, 0, .claimed⟩], 500⟩ :=
  ⟨rfl, rfl⟩

/-- **C9, amended.**  After a successful claim the vault's stored
status is `claimed`, which the current status-recomputation preserves
for every time (so it leaves the claimable index); the other
beneficiaries' shares are discarded in the sense that no per-claim
tracking exists.  However `claimVault` performs no status check, so a
subsequent direct claim by another matching beneficiary on the updated
ledger still succeeds. -/
theorem claim_C9_amended (vaults : List Vault) (vaultId a1 : String)
    (res : ClaimResult) (h : claimVaultOp vaults vaultId (some a1) = .ok res) :
    (∀ v ∈ res.vaults, v.id = vaultId →
       v.status = .claimed ∧ ∀ now, updateStatus v now = .claimed) ∧
    (∀ a2 : String, a2 ≠ "" →
       ∀ v0, vaults.find? (fun v => v.id == vaultId) = some v0 →
       ∀ b, v0.beneficiaries.find?
           (fun b => lowerString b.address == lowerString a2) = some b →
       ∃ res2, claimVaultOp res.vaults vaultId (some a2) = .ok res2) := by
  cases hfind : vaults.find? (fun v => v.id == vaultId) with
  | none => rw [claimVaultOp_none_eq vaults vaultId _ hfind] at h; simp at h
  | some v =>
      rw [claimVaultOp_some_eq vaults vaultId a1 v hfind] at h
      by_cases ha : a1 = ""
      · rw [if_pos ha] at h; simp at h
      · rw [if_neg ha] at h
        cases hben : v.beneficiaries.find?
            (fun b => lowerString b.address == lowerString a1) with
        | none => rw [hben] at h; simp at h
        | some b1 =>
            rw [hben] at h
            have hres : res = ⟨vaults.map fun w =>
                if w.id == vaultId then { w with status := .claimed } else w,
              claimAmountSats v.amountSats b1.percentage⟩ := by
              exact (Except.ok.inj h).symm
            subst hres
            constructor
            · intro w hw hid
              obtain ⟨u, hu, hfu⟩ := List.mem_map.mp hw
              by_cases hcase : (u.id == vaultId) = true
              · rw [if_pos hcase] at hfu
                have hst : w.status = .claimed := by rw [← hfu]
                refine ⟨hst, fun now => ?_⟩
                unfold updateStatus
                rw [hst]
                simp
              · rw [if_neg hcase] at hfu
                subst hfu
                exact absurd (beq_iff_eq.mpr hid) hcase
            · intro a2 ha2 v0 hv0 b hb
              have hv0v : v = v0 := Option.some.inj hv0
              rw [hv0v] at hfind
              have hid : ∀ w : Vault,
                  ((fun w => if w.id == vaultId
                      then { w with status := VaultStatus.claimed } else w) w).id
                    = w.id := by
                intro w
                by_cases hw : (w.id == vaultId) = true
                · simp [hw]
                · simp [hw]
              have hfm : (vaults.map fun w =>
                    if w.id == vaultId then { w with status := VaultStatus.claimed }
                    else w).find? (fun v => v.id == vaultId) =
                  some (if (v0.id == vaultId) = true
                    then { v0 with status := VaultStatus.claimed } else v0) := by
                rw [find_map_id_preserving vaults vaultId _ hid, hfind,
                  Option.map_some']
              have hbens : (if (v0.id == vaultId) = true
                  then { v0 with status := VaultStatus.claimed } else v0).beneficiaries
                    = v0.beneficiaries := by
                by_cases hw : (v0.id == vaultId) = true
                · rw [if_pos hw]
                · rw [if_neg hw]
              exact ⟨_, by
                rw [claimVaultOp_some_eq _ vaultId a2 _ hfm, if_neg ha2, hbens, hb]⟩

/-- **C9, witness.** -/
theorem claim_C9_witness :
    ((⟨"v1", "own", 1000, [⟨"b1", "Alice", "alice", 50⟩, ⟨"b2", "Bob", "bob", 50⟩],
        30, 0, .claimed⟩ : Vault).status = .claimed ∧
      ∀ now, updateStatus ⟨"v1", "own", 1000,
        [⟨"b1", "Alice", "alice", 50⟩, ⟨"b2", "Bob", "bob", 50⟩],
        30, 0, .claimed⟩ now = .claimed) ∧
    ∃ res2, claimVaultOp
        [⟨"v1", "own", 1000, [⟨"b1", "Alice", "alice", 50⟩, ⟨"b2", "Bob", "bob", 50⟩],
          30, 0, .claimed⟩] "v1" (some "bob") = .ok res2 := by
  have h := claim_C9_amended
    [⟨"v1", "own", 1000, [⟨"b1", "Alice", "alice", 50⟩, ⟨"b2", "Bob", "bob", 50⟩],
      30, 0, .triggered⟩] "v1" "alice" _ rfl
  exact ⟨h.1 _ (List.mem_singleton.mpr rfl) rfl, h.2 "bob" (by decide) _ rfl _ rfl⟩

/-- **C10.**  A vault is in the derived claimable index exactly when
its status is `triggered` and some beneficiary's lowercased address
equals the lowercased wallet address; with no (or an empty) wallet
address the index is empty. -/
theorem claim_C10 (vaults : List Vault) :
    claimableVaults vaults none = [] ∧
    claimableVaults vaults (some "") = [] ∧
    ∀ addr : String, addr ≠ "" → ∀ v : Vault,
      (v ∈ claimableVaults vaults (some addr) ↔
        v ∈ vaults ∧ v.status = .triggered ∧
          ∃ b ∈ v.beneficiaries, lowerString b.address = lowerString addr) := by
  refine ⟨rfl, rfl, fun addr ha v => ?_⟩
  show v ∈ (if addr = "" then ([] : List Vault)
      else vaults.filter fun v =>
        v.status == VaultStatus.triggered &&
          v.beneficiaries.any fun b =>
            lowerString b.address == lowerString addr) ↔ _
  rw [if_neg ha, List.mem_filter]
  simp [List.any_eq_true, and_assoc]

/-- **C10, witness.** -/
theorem claim_C10_witness :
    (⟨"v1", "own", 1000, [⟨"b1", "Bob", "Bob", 100⟩], 30, 0, .triggered⟩ : Vault) ∈
      claimableVaults
        [⟨"v1", "own", 1000, [⟨"b1", "Bob", "Bob", 100⟩], 30, 0, .triggered⟩,
         ⟨"v2", "own", 1000, [⟨"b1", "Bob", "Bob", 100⟩], 30, 0, .active⟩]
        (some "BOB") := by
  refine ((claim_C10 _).2.2 "BOB" (by decide) _).mpr ?_
  exact ⟨by simp, rfl, ⟨"b1", "Bob", "Bob", 100⟩, by simp, rfl⟩

/-- **C1, counterexample.**  The claim asserts
`sum(inputs) = sum(outputs) + fee` with no output below 546 sats for
every builder candidate.  With one 1330-sat UTXO, `amountSats = 600`
and `feeRate = 1`, the create-vault builder reports fee 230 and
suppresses the 500-sat change without adding it to the reported fee:
inputs 1330 ≠ outputs 600 + fee 230.  And the claim builder emits a
100-sat claim output, below the dust threshold. -/
theorem claim_C1_counterexample :
    buildCreateVaultPsbt [1330] 600 1 = .ok ⟨[600, 0], 230⟩ ∧
    (1330 : Int) ≠ ([600, 0] : List Int).sum + 230 ∧
    buildClaimPsbt 10000 100 1 = .ok ⟨[100, 9720, 0], 180⟩ ∧
    (100 : Int) ∈ ([100, 9720, 0] : List Int) ∧ (100 : Int) < 546 := by
  refine ⟨rfl, by decide, rfl, by decide, by decide⟩

/-- **C1, amended.**  Check-in and cancel candidates balance exactly
(`inputs = outputs + fee`) and every value-bearing output is at least
546 sats.  Create-vault and claim candidates balance exactly only when
the change/remainder exceeds 546 sats; otherwise the suppressed
remainder `r` (`0 ≤ r ≤ 546` for create-vault, `r ≤ 546` and possibly
negative for claim, which checks no funds at all) satisfies
`inputs = outputs + fee + r` and is **not** folded into the reported
fee; the vault and claim outputs themselves are emitted at their
requested amounts with no dust check. -/
theorem claim_C1_amended :
    (∀ (utxoValues : List Int) (amountSats feeRate : Int) (r : TxCandidate),
       buildCreateVaultPsbt utxoValues amountSats feeRate = .ok r →
         0 ≤ utxoValues.sum - amountSats - r.fee ∧
         (546 < utxoValues.sum - amountSats - r.fee →
            utxoValues.sum = r.outputs.sum + r.fee) ∧
         (utxoValues.sum - amountSats - r.fee ≤ 546 →
            utxoValues.sum = r.outputs.sum + r.fee +
              (utxoValues.sum - amountSats - r.fee))) ∧
    (∀ (vaultValue feeRate : Int) (r : TxCandidate),
       buildCheckInPsbt vaultValue feeRate = .ok r →
         vaultValue = r.outputs.sum + r.fee ∧
         ∀ o ∈ r.outputs, o = 0 ∨ 546 ≤ o) ∧
    (∀ (vaultValue claimAmount feeRate : Int) (r : TxCandidate),
       buildClaimPsbt vaultValue claimAmount feeRate = .ok r →
         (546 < vaultValue - claimAmount - r.fee →
            vaultValue = r.outputs.sum + r.fee) ∧
         (vaultValue - claimAmount - r.fee ≤ 546 →
            vaultValue = r.outputs.sum + r.fee +
              (vaultValue - claimAmount - r.fee))) ∧
    (∀ (vaultValue feeRate : Int) (r : TxCandidate),
       buildCancelPsbt vaultValue feeRate = .ok r →
         vaultValue = r.outputs.sum + r.fee ∧
         ∀ o ∈ r.outputs, o = 0 ∨ 546 ≤ o) := by
  refine ⟨?_, ?_, ?_, ?_⟩
  · intro utxoValues amountSats feeRate r h
    unfold buildCreateVaultPsbt at h
    dsimp only at h
    rw [show ((utxoValues.length : Int) * 68 + 31 + 31 + 100) * feeRate =
      (utxoValues.length : Int) * 68 * feeRate + 162 * feeRate by ring] at h
    generalize hF : (utxoValues.length : Int) * 68 * feeRate = F at h
    split_ifs at h with hins h546
    · obtain rfl := (Except.ok.inj h).symm
      dsimp only
      simp only [List.sum_append, List.sum_cons, List.sum_nil]
      exact ⟨by omega, fun _ => by omega, fun hc => by omega⟩
    · obtain rfl := (Except.ok.inj h).symm
      dsimp only
      simp only [List.append_nil, List.sum_cons, List.sum_nil]
      exact ⟨by omega, fun hc => by omega, fun _ => by omega⟩
  · intro vaultValue feeRate r h
    unfold buildCheckInPsbt at h
    dsimp only at h
    split_ifs at h with hlt
    obtain rfl := (Except.ok.inj h).symm
    dsimp only
    constructor
    · simp only [List.sum_cons, List.sum_nil]
      omega
    · intro o ho
      simp only [List.mem_cons, List.not_mem_nil, or_false] at ho
      rcases ho with ho | ho
      · right
        omega
      · left
        exact ho
  · intro vaultValue claimAmount feeRate r h
    unfold buildClaimPsbt at h
    dsimp only at h
    split_ifs at h with h546
    · obtain rfl := (Except.ok.inj h).symm
      dsimp only
      simp only [List.sum_append, List.sum_cons, List.sum_nil]
      exact ⟨fun _ => by omega, fun hc => by omega⟩
    · obtain rfl := (Except.ok.inj h).symm
      dsimp only
      simp only [List.nil_append, List.sum_append, List.sum_cons, List.sum_nil]
      exact ⟨fun hc => by omega, fun _ => by omega⟩
  · intro vaultValue feeRate r h
    unfold buildCancelPsbt at h
    dsimp only at h
    split_ifs at h with hlt
    obtain rfl := (Except.ok.inj h).symm
    dsimp only
    constructor
    · simp only [List.sum_cons, List.sum_nil]
      omega
    · intro o ho
      simp only [List.mem_cons, List.not_mem_nil, or_false] at ho
      rcases ho with ho | ho
      · right
        omega
      · left
        exact ho

/-- **C1, witness.** -/
theorem claim_C1_witness :
    (0 ≤ ([200000] : List Int).sum - 100000 -
        (⟨[100000, 0, 99770], 230⟩ : TxCandidate).fee ∧
      (546 < ([200000] : List Int).sum - 100000 -
          (⟨[100000, 0, 99770], 230⟩ : TxCandidate).fee →
        ([200000] : List Int).sum =
          (⟨[100000, 0, 99770], 230⟩ : TxCandidate).outputs.sum +
            (⟨[100000, 0, 99770], 230⟩ : TxCandidate).fee) ∧
      (([200000] : List Int).sum - 100000 -
          (⟨[100000, 0, 99770], 230⟩ : TxCandidate).fee ≤ 546 →
        ([200000] : List Int).sum =
          (⟨[100000, 0, 99770], 230⟩ : TxCandidate).outputs.sum +
            (⟨[100000, 0, 99770], 230⟩ : TxCandidate).fee +
            (([200000] : List Int).sum - 100000 -
              (⟨[100000, 0, 99770], 230⟩ : TxCandidate).fee))) ∧
    ((10000 : Int) = (⟨[9851, 0], 149⟩ : TxCandidate).outputs.sum +
        (⟨[9851, 0], 149⟩ : TxCandidate).fee ∧
      ∀ o ∈ (⟨[9851, 0], 149⟩ : TxCandidate).outputs, o = 0 ∨ 546 ≤ o) :=
  ⟨claim_C1_amended.1 [200000] 100000 1 ⟨[100000, 0, 99770], 230⟩ rfl,
   claim_C1_amended.2.1 10000 1 ⟨[9851, 0], 149⟩ rfl⟩

/-- **C6, counterexample.**  The claim says a payload exceeding 65535
bytes fails with `PayloadTooLarge`.  `buildOpReturnScript` has no size
check at all: on a 65536-byte payload it happily returns a script
whose two little-endian length bytes encode `65536 mod 65536 = 0`. -/
theorem claim_C6_counterexample :
    (buildOpReturnScript (List.replicate 65536 0)).take 4 =
      [0x6a, 0x4d, 0, 0] := by
  have hlen : (List.replicate 65536 (0 : Nat)).length = 65536 :=
    List.length_replicate 65536 0
  unfold buildOpReturnScript
  rw [hlen]
  norm_num

/-- **C6, amended.**  The framing tiers hold as claimed: payloads of
at most 75 bytes get a direct length byte, payloads of 76-255 bytes an
`OP_PUSHDATA1` prefix, and larger payloads an `OP_PUSHDATA2` two-byte
little-endian length.  But there is no 65535-byte ceiling and no
`PayloadTooLarge` failure: the function is total, and beyond 65535
bytes the emitted length field is the payload length modulo 65536. -/
theorem claim_C6_amended (data : List Nat) :
    (data.length ≤ 75 →
      buildOpReturnScript data = 0x6a :: data.length :: data) ∧
    (76 ≤ data.length → data.length ≤ 255 →
      buildOpReturnScript data = 0x6a :: 0x4c :: data.length :: data) ∧
    (255 < data.length →
      buildOpReturnScript data =
        0x6a :: 0x4d :: (data.length % 256) :: (data.length / 256 % 256) :: data) := by
  refine ⟨?_, ?_, ?_⟩
  · intro h
    unfold buildOpReturnScript
    rw [if_pos h]
  · intro h76 h255
    unfold buildOpReturnScript
    rw [if_neg (by omega), if_pos h255]
  · intro h
    unfold buildOpReturnScript
    rw [if_neg (by omega), if_neg (by omega)]

/-- **C6, witness.** -/
theorem claim_C6_witness :
    (buildOpReturnScript (List.replicate 75 7) =
      0x6a :: (List.replicate 75 7).length :: List.replicate 75 7) ∧
    (buildOpReturnScript (List.replicate 255 7) =
      0x6a :: 0x4c :: (List.replicate 255 7).length :: List.replicate 255 7) ∧
    (buildOpReturnScript (List.replicate 256 7) =
      0x6a :: 0x4d :: ((List.replicate 256 7).length % 256) ::
        ((List.replicate 256 7).length / 256 % 256) :: List.replicate 256 7) :=
  ⟨(claim_C6_amended (List.replicate 75 7)).1 (by simp only [List.length_replicate]; omega),
   (claim_C6_amended (List.replicate 255 7)).2.1 (by simp only [List.length_replicate]; omega) (by simp only [List.length_replicate]; omega),
   (claim_C6_amended (List.replicate 256 7)).2.2 (by simp only [List.length_replicate]; omega)⟩

/-- **C8.**  Every wizard state at step 3 or beyond (in particular the
review step 4, the only place the submit button is rendered, so every
beneficiary list handed to `createVault`) has percentage shares
summing to exactly 100; and any beneficiary list whose shares sum to
anything else is rejected by step-2 validation with a validation
error. -/
theorem claim_C8 :
    (∀ s, WizardReachable s → 3 ≤ s.step →
      totalPercentage s.beneficiaries = 100) ∧
    (∀ bs : List Beneficiary, totalPercentage bs ≠ 100 →
      validateStep2 bs ≠ none) := by
  constructor
  · intro s hs
    induction hs with
    | init =>
        intro h3
        exact absurd h3 (by decide)
    | @next s hs ih =>
        unfold wizardNext
        by_cases hv : validateStepPasses s.step s.beneficiaries = true
        · rw [if_pos hv]
          intro h3
          dsimp only at h3 ⊢
          by_cases h2 : s.step = 2
          · rw [h2] at hv
            unfold validateStepPasses at hv
            exact validateStep2_none_total (by simpa using hv)
          · exact ih (by omega)
        · rw [if_neg hv]
          exact ih
    | @back s hs ih =>
        unfold wizardBack
        intro h3
        dsimp only at h3
        exact ih (by omega)
    | @edit s bs hs ih =>
        unfold wizardEdit
        by_cases h2 : s.step = 2
        · rw [if_pos h2]
          intro h3
          dsimp only at h3
          omega
        · rw [if_neg h2]
          exact ih
  · intro bs h
    unfold validateStep2
    split_ifs <;> simp_all

/-- **C8, witness.** -/
theorem claim_C8_witness :
    totalPercentage (wizardNext (wizardEdit (wizardNext wizardInit)
      [⟨"1", "Alice", "tb1qaaa", 60⟩, ⟨"2", "Bob", "tb1qbbb", 40⟩])).beneficiaries
        = 100 ∧
    validateStep2 [⟨"1", "Eve", "tb1qccc", 50⟩] ≠ none :=
  ⟨claim_C8.1 _
      (WizardReachable.next (WizardReachable.edit _ (WizardReachable.next
        WizardReachable.init)))
      (by decide),
   claim_C8.2 [⟨"1", "Eve", "tb1qccc", 50⟩] (by decide)⟩

end BitWill

